import Mathlib

/-!
Shallow embedding of the rust-bitcoin-rgb core: the P2PKH `Address` codec
(src/src/wallet/address.rs) and the `FeeRate` fixed-point arithmetic
(src/units/src/fee_rate/mod.rs).

Machine integers (`u64`, `u8`) are modelled as `Nat`. Overflow is explicit:
the `checked_*` operations return `Option` exactly as in the source, and the
unchecked (operator) forms take a Boolean `dbg` flag modelling the Rust
overflow-checks build mode: with checks on (`dbg = true`, debug builds) an
overflowing operation panics, modelled as `none`; with checks off
(`dbg = false`, release builds) the value wraps modulo `2 ^ 64`. Division by
zero panics in every build mode.
-/

/-- `2 ^ 64`, the modulus of `u64` arithmetic. -/
def U64_MOD : Nat := 2 ^ 64

/-- Rust `u64` addition `a + b`: exact when in range; on overflow, panic
(`none`) with overflow checks on, wraparound with them off. -/
def u64Add (dbg : Bool) (a b : Nat) : Option Nat :=
  if a + b < U64_MOD then some (a + b)
  else if dbg then none else some ((a + b) % U64_MOD)

/-- Rust `u64` subtraction `a - b`: exact when `b ≤ a`; on underflow, panic
(`none`) with overflow checks on, wraparound with them off. -/
def u64Sub (dbg : Bool) (a b : Nat) : Option Nat :=
  if b ≤ a then some (a - b)
  else if dbg then none else some ((U64_MOD + a - b) % U64_MOD)

/-- Rust `u64` multiplication `a * b`: exact when in range; on overflow, panic
(`none`) with overflow checks on, wraparound with them off. -/
def u64Mul (dbg : Bool) (a b : Nat) : Option Nat :=
  if a * b < U64_MOD then some (a * b)
  else if dbg then none else some ((a * b) % U64_MOD)

/-- Rust `u64` division `a / b`: truncating; division by zero panics (`none`)
in every build mode. -/
def u64Div (a b : Nat) : Option Nat :=
  if b = 0 then none else some (a / b)

/-- Rust `u64::checked_add`: `none` on overflow, in every build mode. -/
def u64CheckedAdd (a b : Nat) : Option Nat :=
  if a + b < U64_MOD then some (a + b) else none

/-- Rust `u64::checked_sub`: `none` on underflow, in every build mode. -/
def u64CheckedSub (a b : Nat) : Option Nat :=
  if b ≤ a then some (a - b) else none

/-- Rust `u64::checked_mul`: `none` on overflow, in every build mode. -/
def u64CheckedMul (a b : Nat) : Option Nat :=
  if a * b < U64_MOD then some (a * b) else none

/-- Rust `u64::checked_div`: `none` exactly when the divisor is zero. -/
def u64CheckedDiv (a b : Nat) : Option Nat :=
  if b = 0 then none else some (a / b)

/-- `Amount` (src/units, collaborator of `FeeRate`): unsigned integer newtype,
unit = satoshis. -/
structure Amount where
  sat : Nat
deriving DecidableEq, Repr

/-- `Amount::from_sat`. -/
def Amount.from_sat (n : Nat) : Amount := ⟨n⟩

/-- `Amount::to_sat`. -/
def Amount.to_sat (a : Amount) : Nat := a.sat

/-- `Weight` (src/units, collaborator of `FeeRate`): unsigned integer newtype,
unit = weight units. -/
structure Weight where
  wuVal : Nat
deriving DecidableEq, Repr

/-- `Weight::from_wu`. -/
def Weight.from_wu (n : Nat) : Weight := ⟨n⟩

/-- `Weight::to_wu`. -/
def Weight.to_wu (w : Weight) : Nat := w.wuVal

/-- `FeeRate` (src/units/src/fee_rate/mod.rs): `u64` newtype, unit = sat/kwu. -/
structure FeeRate where
  val : Nat
deriving DecidableEq, Repr

/-- `FeeRate::from_sat_per_kwu`: identity constructor. -/
def FeeRate.from_sat_per_kwu (sat_kwu : Nat) : FeeRate := ⟨sat_kwu⟩

/-- `FeeRate::to_sat_per_kwu`: identity accessor. -/
def FeeRate.to_sat_per_kwu (f : FeeRate) : Nat := f.val

/-- `FeeRate::from_sat_per_vb`: `Some(FeeRate(sat_vb.checked_mul(1000 / 4)?))`. -/
def FeeRate.from_sat_per_vb (sat_vb : Nat) : Option FeeRate :=
  (u64CheckedMul sat_vb (1000 / 4)).map FeeRate.mk

/-- `FeeRate::from_sat_per_vb_unchecked`: `FeeRate(sat_vb * (1000 / 4))` with
unchecked (build-mode dependent) multiplication. -/
def FeeRate.from_sat_per_vb_unchecked (dbg : Bool) (sat_vb : Nat) : Option FeeRate :=
  (u64Mul dbg sat_vb (1000 / 4)).map FeeRate.mk

/-- `FeeRate::from_sat_per_kvb`: `FeeRate(sat_kvb / 4)`, truncating. -/
def FeeRate.from_sat_per_kvb (sat_kvb : Nat) : FeeRate := ⟨sat_kvb / 4⟩

/-- `FeeRate::to_sat_per_vb_floor`: `self.0 / (1000 / 4)`. -/
def FeeRate.to_sat_per_vb_floor (f : FeeRate) : Nat := f.val / (1000 / 4)

/-- `FeeRate::to_sat_per_vb_ceil`: `(self.0 + (1000 / 4 - 1)) / (1000 / 4)`.
The addition is unchecked `u64` arithmetic, hence the build-mode flag. -/
def FeeRate.to_sat_per_vb_ceil (dbg : Bool) (f : FeeRate) : Option Nat :=
  (u64Add dbg f.val (1000 / 4 - 1)).map (· / (1000 / 4))

/-- `FeeRate::checked_mul`. -/
def FeeRate.checked_mul (f : FeeRate) (rhs : Nat) : Option FeeRate :=
  match u64CheckedMul f.val rhs with
  | some res => some ⟨res⟩
  | none => none

/-- `FeeRate::checked_div`. -/
def FeeRate.checked_div (f : FeeRate) (rhs : Nat) : Option FeeRate :=
  match u64CheckedDiv f.val rhs with
  | some res => some ⟨res⟩
  | none => none

/-- `FeeRate::checked_add`. -/
def FeeRate.checked_add (f : FeeRate) (rhs : Nat) : Option FeeRate :=
  match u64CheckedAdd f.val rhs with
  | some res => some ⟨res⟩
  | none => none

/-- `FeeRate::checked_sub`. -/
def FeeRate.checked_sub (f : FeeRate) (rhs : Nat) : Option FeeRate :=
  match u64CheckedSub f.val rhs with
  | some res => some ⟨res⟩
  | none => none

/-- `FeeRate::checked_mul_by_weight`: checked `self.0 * weight.to_wu()`, then
checked `+ 999`, then `/ 1000`, wrapped into an `Amount`. -/
def FeeRate.checked_mul_by_weight (f : FeeRate) (weight : Weight) : Option Amount :=
  match u64CheckedMul f.val weight.to_wu with
  | some mul_res =>
    match u64CheckedAdd mul_res 999 with
    | some add_res => some (Amount.from_sat (add_res / 1000))
    | none => none
  | none => none

/-- `impl Mul<FeeRate> for Weight`:
`Amount::from_sat((rhs.to_sat_per_kwu() * self.to_wu() + 999) / 1000)` with
unchecked `u64` multiplication and addition. -/
def Weight.mulFeeRate (dbg : Bool) (w : Weight) (rhs : FeeRate) : Option Amount :=
  (u64Mul dbg rhs.to_sat_per_kwu w.to_wu).bind fun m =>
    (u64Add dbg m 999).map fun s => Amount.from_sat (s / 1000)

/-- `impl Mul<Weight> for FeeRate`: delegates to `rhs * self`. -/
def FeeRate.mulWeight (dbg : Bool) (f : FeeRate) (rhs : Weight) : Option Amount :=
  Weight.mulFeeRate dbg rhs f

/-- `impl Add for FeeRate`: `FeeRate(self.0 + rhs.0)`, unchecked. -/
def FeeRate.add (dbg : Bool) (f rhs : FeeRate) : Option FeeRate :=
  (u64Add dbg f.val rhs.val).map FeeRate.mk

/-- `impl Sub for FeeRate`: `FeeRate(self.0 - rhs.0)`, unchecked. -/
def FeeRate.sub (dbg : Bool) (f rhs : FeeRate) : Option FeeRate :=
  (u64Sub dbg f.val rhs.val).map FeeRate.mk

/-- `impl Div<Weight> for Amount`: `FeeRate(self.to_sat() * 1000 / rhs.to_wu())`,
truncating; the multiplication is unchecked and the division panics on a zero
divisor. -/
def Amount.divWeight (dbg : Bool) (a : Amount) (rhs : Weight) : Option FeeRate :=
  (u64Mul dbg a.to_sat 1000).bind fun m =>
    (u64Div m rhs.to_wu).map FeeRate.mk

/-- `Network` (network/constants.rs, collaborator): closed enumeration of the
two networks handled by the address codec. -/
inductive Network where
  | Bitcoin : Network
  | Testnet : Network
deriving DecidableEq, Repr

/-- Modelled from the spec: `util::hash` is not among the sources. §3 describes
`Hash160`/`Ripemd160Hash` as "20 owned bytes" with "no interpretation of
content", so it is a newtype over a byte sequence. -/
structure Ripemd160Hash where
  bytes : List Nat
deriving DecidableEq, Repr

/-- Modelled from the spec: `Ripemd160Hash::from_slice` wraps "digest bytes
arriving from an external buffer" (§4.1) without transforming them. -/
def Ripemd160Hash.from_slice (data : List Nat) : Ripemd160Hash := ⟨data⟩

/-- Modelled from the spec: the digest collaborators (§6) are abstract byte
functions; `sha256` produces 32-byte digests and `ripemd160` 20-byte digests
(well-formedness is stated separately as `DigestImpl.WF`). -/
structure DigestImpl where
  sha256 : List Nat → List Nat
  ripemd160 : List Nat → List Nat

/-- Well-formedness of a digest implementation: SHA-256 digests are 32 bytes,
RIPEMD-160 digests are 20 bytes. -/
def DigestImpl.WF (d : DigestImpl) : Prop :=
  (∀ x, (d.sha256 x).length = 32) ∧ (∀ x, (d.ripemd160 x).length = 20)

/-- Modelled from the spec: `Ripemd160Hash::from_data` realises the digest
collaborator of §6 — "RIPEMD-160 applied to" its input — as used by
`from_key` in §4.2 ("computes digest = RIPEMD-160(SHA-256(...))"). -/
def Ripemd160Hash.from_data (d : DigestImpl) (data : List Nat) : Ripemd160Hash :=
  ⟨d.ripemd160 data⟩

/-- `Address` (src/src/wallet/address.rs): a network paired with the pubkey
hash; equality is structural over both fields (`derive(PartialEq, Eq)`). -/
structure Address where
  network : Network
  hash : Ripemd160Hash
deriving DecidableEq, Repr

/-- `Address::from_key`: feeds the public key bytes to SHA-256, collects the
32-byte digest in `out`, and builds the address from
`Ripemd160Hash::from_data(&out)`. -/
def Address.from_key (d : DigestImpl) (network : Network) (pk : List Nat) : Address :=
  { network := network, hash := Ripemd160Hash.from_data d (d.sha256 pk) }

/-- `base58::Error` (util/base58.rs, collaborator): the two decode failures
produced by the address layer. `InvalidVersion` carries the offending byte(s)
as a vector, matching `Error::InvalidVersion(vec![x])`. -/
inductive Base58Error where
  | InvalidLength : Nat → Base58Error
  | InvalidVersion : List Nat → Base58Error
deriving DecidableEq, Repr

/-- `impl ToBase58 for Address::base58_layout`: one version byte selected by
the network (0 for mainnet, 111 for testnet) followed by the 20 hash bytes. -/
def Address.base58_layout (a : Address) : List Nat :=
  (match a.network with
   | Network.Bitcoin => 0
   | Network.Testnet => 111) :: a.hash.bytes

/-- `impl FromBase58 for Address::from_base58_layout`: rejects payloads whose
length is not 21 with `InvalidLength`, then matches the version byte
(0 → mainnet, 111 → testnet, anything else → `InvalidVersion`), and wraps
bytes 1..21 via `Ripemd160Hash::from_slice`. -/
def Address.from_base58_layout (data : List Nat) : Except Base58Error Address :=
  if data.length ≠ 21 then
    Except.error (Base58Error.InvalidLength data.length)
  else
    match data with
    | [] => Except.error (Base58Error.InvalidLength 0) -- unreachable: length is 21
    | x :: rest =>
      if x = 0 then
        Except.ok { network := Network.Bitcoin, hash := Ripemd160Hash.from_slice rest }
      else if x = 111 then
        Except.ok { network := Network.Testnet, hash := Ripemd160Hash.from_slice rest }
      else
        Except.error (Base58Error.InvalidVersion [x])

/-- Opcodes used by `script_pubkey` (blockdata/opcodes.rs, collaborator). -/
inductive Opcode where
  | OP_DUP : Opcode
  | OP_HASH160 : Opcode
  | OP_EQUALVERIFY : Opcode
  | OP_CHECKSIG : Opcode
deriving DecidableEq, Repr

/-- Modelled from the spec: `blockdata::script` is not among the sources; a
script is the sequence of its opcode / pushed-data elements (§6 describes the
produced script as a "5-element opcode sequence"). -/
inductive ScriptElem where
  | op : Opcode → ScriptElem
  | pushSlice : List Nat → ScriptElem
deriving DecidableEq, Repr

/-- Modelled from the spec: a `Script` as the list of its elements. -/
abbrev Script : Type := List ScriptElem

/-- `Script::new`: the empty script. -/
def Script.new : Script := []

/-- `Script::push_opcode`: appends one opcode. -/
def Script.push_opcode (s : Script) (o : Opcode) : Script := s ++ [ScriptElem.op o]

/-- `Script::push_slice`: appends one data push. -/
def Script.push_slice (s : Script) (b : List Nat) : Script := s ++ [ScriptElem.pushSlice b]

/-- `Address::script_pubkey`: `OP_DUP`, `OP_HASH160`, push of the hash bytes,
`OP_EQUALVERIFY`, `OP_CHECKSIG`, built by successive pushes on a new script. -/
def Address.script_pubkey (a : Address) : Script :=
  ((((Script.new.push_opcode Opcode.OP_DUP).push_opcode
      Opcode.OP_HASH160).push_slice a.hash.bytes).push_opcode
      Opcode.OP_EQUALVERIFY).push_opcode Opcode.OP_CHECKSIG

/-! Evaluation helper lemmas for the `u64` primitives. -/

theorem optionBind_some {A B : Type} (a : A) (f : A -> Option B) :
    (some a).bind f = f a := rfl

theorem u64CheckedMul_eq_some {a b : Nat} (h : a * b < 2 ^ 64) :
    u64CheckedMul a b = some (a * b) := by
  unfold u64CheckedMul U64_MOD
  rw [if_pos h]

theorem u64CheckedMul_eq_none {a b : Nat} (h : 2 ^ 64 ≤ a * b) :
    u64CheckedMul a b = none := by
  unfold u64CheckedMul U64_MOD
  rw [if_neg (by omega)]

theorem u64CheckedAdd_eq_some {a b : Nat} (h : a + b < 2 ^ 64) :
    u64CheckedAdd a b = some (a + b) := by
  unfold u64CheckedAdd U64_MOD
  rw [if_pos h]

theorem u64CheckedAdd_eq_none {a b : Nat} (h : 2 ^ 64 ≤ a + b) :
    u64CheckedAdd a b = none := by
  unfold u64CheckedAdd U64_MOD
  rw [if_neg (by omega)]

theorem u64Mul_eq_some {dbg : Bool} {a b : Nat} (h : a * b < 2 ^ 64) :
    u64Mul dbg a b = some (a * b) := by
  unfold u64Mul U64_MOD
  rw [if_pos h]

theorem u64Mul_true_eq_none {a b : Nat} (h : 2 ^ 64 ≤ a * b) :
    u64Mul true a b = none := by
  unfold u64Mul U64_MOD
  rw [if_neg (by omega)]
  rfl

theorem u64Add_eq_some {dbg : Bool} {a b : Nat} (h : a + b < 2 ^ 64) :
    u64Add dbg a b = some (a + b) := by
  unfold u64Add U64_MOD
  rw [if_pos h]

theorem u64Add_true_eq_none {a b : Nat} (h : 2 ^ 64 ≤ a + b) :
    u64Add true a b = none := by
  unfold u64Add U64_MOD
  rw [if_neg (by omega)]
  rfl

theorem u64Sub_eq_some {dbg : Bool} {a b : Nat} (h : b ≤ a) :
    u64Sub dbg a b = some (a - b) := by
  unfold u64Sub
  rw [if_pos h]

theorem u64Sub_true_eq_none {a b : Nat} (h : a < b) :
    u64Sub true a b = none := by
  unfold u64Sub
  rw [if_neg (by omega)]
  rfl

theorem u64Div_eq_some {a b : Nat} (h : b ≠ 0) :
    u64Div a b = some (a / b) := by
  unfold u64Div
  rw [if_neg h]

/-- Evaluation of `checked_mul_by_weight` as a single guarded expression. -/
theorem checked_mul_by_weight_eval (r w : Nat) :
    FeeRate.checked_mul_by_weight (FeeRate.from_sat_per_kwu r) (Weight.from_wu w) =
      if r * w + 999 < 2 ^ 64 then some (Amount.from_sat ((r * w + 999) / 1000)) else none := by
  show (match u64CheckedMul r w with
    | some mul_res =>
      match u64CheckedAdd mul_res 999 with
      | some add_res => some (Amount.from_sat (add_res / 1000))
      | none => none
    | none => none) = _
  by_cases h2 : r * w + 999 < 2 ^ 64
  · rw [u64CheckedMul_eq_some (by omega)]
    dsimp only
    rw [u64CheckedAdd_eq_some (by omega), if_pos h2]
  · rw [if_neg h2]
    by_cases h1 : r * w < 2 ^ 64
    · rw [u64CheckedMul_eq_some h1]
      dsimp only
      rw [u64CheckedAdd_eq_none (by omega)]
    · rw [u64CheckedMul_eq_none (by omega)]

/-- Claim C1 (counterexample): at rate `2 ^ 64 - 1` sat/kwu and weight `1` wu
the product fits in a `u64`, yet `checked_mul_by_weight` returns no value
(the checked addition of 999 overflows), so the claim's "product fits ⇒
returns the ceiling" part is false at this input. -/
theorem C1_counterexample :
    (2 ^ 64 - 1) * 1 < 2 ^ 64 ∧
    FeeRate.checked_mul_by_weight (FeeRate.from_sat_per_kwu (2 ^ 64 - 1)) (Weight.from_wu 1) =
      none := by
  constructor
  · omega
  · rw [checked_mul_by_weight_eval, if_neg (by omega)]

/-- Claim C1 (amended): for every rate `r` and weight `w` such that
`r * w + 999` fits in a `u64`, `checked_mul_by_weight` returns the amount
`(r * w + 999) / 1000`, which is the smallest integer `a` with
`a * 1000 ≥ r * w`; it returns no value exactly when the checked
multiplication or the checked addition of 999 overflows. -/
theorem C1_checked_mul_by_weight_ceil (r w : Nat) (_hr : r < 2 ^ 64) (_hw : w < 2 ^ 64) :
    (r * w + 999 < 2 ^ 64 →
      FeeRate.checked_mul_by_weight (FeeRate.from_sat_per_kwu r) (Weight.from_wu w) =
        some (Amount.from_sat ((r * w + 999) / 1000)) ∧
      r * w ≤ ((r * w + 999) / 1000) * 1000 ∧
      (∀ b : Nat, r * w ≤ b * 1000 → (r * w + 999) / 1000 ≤ b)) ∧
    (2 ^ 64 ≤ r * w + 999 →
      FeeRate.checked_mul_by_weight (FeeRate.from_sat_per_kwu r) (Weight.from_wu w) = none) := by
  constructor
  · intro h
    refine ⟨?_, by omega, fun b hb => by omega⟩
    rw [checked_mul_by_weight_eval, if_pos h]
  · intro h
    rw [checked_mul_by_weight_eval, if_neg (by omega)]

/-- Claim C1 (witness): the amended theorem at the repo's own test vector,
rate 864 sat/kwu and weight 381 wu, giving the fee `⌈329184 / 1000⌉ = 330`. -/
theorem C1_witness :
    FeeRate.checked_mul_by_weight (FeeRate.from_sat_per_kwu 864) (Weight.from_wu 381) =
      some (Amount.from_sat 330) :=
  ((C1_checked_mul_by_weight_ceil 864 381 (by norm_num) (by norm_num)).1 (by norm_num)).1

/-- Claim C5: for every `v` whose conversion `v * 250` fits in a `u64`,
`from_sat_per_vb v` succeeds and converting back with `to_sat_per_vb_floor`
recovers `v` exactly; `from_sat_per_vb u64::MAX` returns no value. -/
theorem C5_from_sat_per_vb_exact :
    (∀ v : Nat, v < 2 ^ 64 → v * 250 < 2 ^ 64 →
      ∃ f : FeeRate, FeeRate.from_sat_per_vb v = some f ∧ f.to_sat_per_vb_floor = v) ∧
    FeeRate.from_sat_per_vb (2 ^ 64 - 1) = none := by
  constructor
  · intro v _hv h250
    refine ⟨⟨v * 250⟩, ?_, ?_⟩
    · show (u64CheckedMul v (1000 / 4)).map FeeRate.mk = _
      rw [show (1000 / 4 : Nat) = 250 from rfl, u64CheckedMul_eq_some h250]
      rfl
    · show v * 250 / (1000 / 4) = v
      omega
  · show (u64CheckedMul (2 ^ 64 - 1) (1000 / 4)).map FeeRate.mk = none
    rw [show (1000 / 4 : Nat) = 250 from rfl, u64CheckedMul_eq_none (by omega)]
    rfl

/-- Claim C5 (witness): the conversion theorem at `v = 10`, matching the
repo's `fee_rate_from_sat_per_vb` test (`FeeRate(2500)`). -/
theorem C5_witness :
    ∃ f : FeeRate, FeeRate.from_sat_per_vb 10 = some f ∧ f.to_sat_per_vb_floor = 10 :=
  C5_from_sat_per_vb_exact.1 10 (by norm_num) (by norm_num)

/-- Claim C6 (counterexample): at raw rate `2 ^ 64 - 1` sat/kwu the addition
of 249 inside `to_sat_per_vb_ceil` overflows: with overflow checks on the
call panics, and with them off it returns the wrapped value `0`; neither is
the mathematical value `(raw + 249) / 250 = 73786976294838207` the claim
asserts for every raw value. -/
theorem C6_counterexample :
    FeeRate.to_sat_per_vb_ceil true (FeeRate.from_sat_per_kwu (2 ^ 64 - 1)) = none ∧
    FeeRate.to_sat_per_vb_ceil false (FeeRate.from_sat_per_kwu (2 ^ 64 - 1)) = some 0 ∧
    (2 ^ 64 - 1 + 249) / 250 = 73786976294838207 ∧
    (73786976294838207 : Nat) ≠ 0 := by
  refine ⟨?_, ?_, by norm_num, by norm_num⟩
  · show (u64Add true (2 ^ 64 - 1) (1000 / 4 - 1)).map (· / (1000 / 4)) = none
    rw [show (1000 / 4 - 1 : Nat) = 249 from rfl, u64Add_true_eq_none (by omega)]
    rfl
  · show (u64Add false (2 ^ 64 - 1) (1000 / 4 - 1)).map (· / (1000 / 4)) = some 0
    unfold u64Add U64_MOD
    rw [if_neg (by omega)]
    norm_num

/-- Claim C6 (amended): for every raw rate such that `raw + 249` fits in a
`u64`, `to_sat_per_vb_ceil` returns `(raw + 249) / 250` in either build mode,
and that value is the ceiling of `raw / 250` (the smallest `b` with
`b * 250 ≥ raw`); in particular `from_sat_per_kwu 749` gives floor 2 and
ceiling 3. For larger raw values the internal addition overflows. -/
theorem C6_to_sat_per_vb_ceil (dbg : Bool) (raw : Nat) (h : raw + 249 < 2 ^ 64) :
    FeeRate.to_sat_per_vb_ceil dbg (FeeRate.from_sat_per_kwu raw) = some ((raw + 249) / 250) ∧
    raw ≤ ((raw + 249) / 250) * 250 ∧
    (∀ b : Nat, raw ≤ b * 250 → (raw + 249) / 250 ≤ b) ∧
    (FeeRate.from_sat_per_kwu 749).to_sat_per_vb_floor = 2 ∧
    FeeRate.to_sat_per_vb_ceil dbg (FeeRate.from_sat_per_kwu 749) = some 3 := by
  refine ⟨?_, by omega, fun b hb => by omega, by norm_num [FeeRate.to_sat_per_vb_floor,
    FeeRate.from_sat_per_kwu], ?_⟩
  · show (u64Add dbg raw (1000 / 4 - 1)).map (· / (1000 / 4)) = _
    rw [show (1000 / 4 - 1 : Nat) = 249 from rfl, u64Add_eq_some h]
    norm_num
  · show (u64Add dbg 749 (1000 / 4 - 1)).map (· / (1000 / 4)) = some 3
    rw [show (1000 / 4 - 1 : Nat) = 249 from rfl, u64Add_eq_some (by norm_num)]
    rfl

/-- Claim C6 (witness): the amended theorem at overflow checks on and
raw = 749 sat/kwu, the repo's `raw_feerate` test (`ceil = 3`). -/
theorem C6_witness :
    FeeRate.to_sat_per_vb_ceil true (FeeRate.from_sat_per_kwu 749) = some 3 :=
  (C6_to_sat_per_vb_ceil true 749 (by norm_num)).1.trans (by norm_num)

/-- Claim C7 (counterexample): at `Amount(2 ^ 64 - 1)` and the non-zero
`Weight(1)` the internal multiplication `a * 1000` overflows: with overflow
checks on the division panics, and with them off it returns the wrapped
rate `18446744073709550616`, not the claimed `a * 1000 / w` (which does not
even fit in a `u64`). -/
theorem C7_counterexample :
    Amount.divWeight true (Amount.from_sat (2 ^ 64 - 1)) (Weight.from_wu 1) = none ∧
    Amount.divWeight false (Amount.from_sat (2 ^ 64 - 1)) (Weight.from_wu 1) =
      some (FeeRate.from_sat_per_kwu 18446744073709550616) ∧
    (2 ^ 64 - 1) * 1000 / 1 ≠ 18446744073709550616 := by
  refine ⟨?_, ?_, by norm_num⟩
  · show (u64Mul true (2 ^ 64 - 1) 1000).bind _ = none
    rw [u64Mul_true_eq_none (by omega)]
    rfl
  · show (u64Mul false (2 ^ 64 - 1) 1000).bind
      (fun m => (u64Div m (Weight.to_wu (Weight.from_wu 1))).map FeeRate.mk) = _
    unfold u64Mul U64_MOD u64Div
    rw [if_neg (by omega)]
    norm_num [Weight.to_wu, Weight.from_wu, FeeRate.from_sat_per_kwu]

/-- Claim C7 (amended): for every amount `a` and non-zero weight `w` such that
`a * 1000` fits in a `u64`, `Amount / Weight` returns the fee rate
`a * 1000 / w` by truncating integer division (the result is the floor:
`q * w ≤ a * 1000 < (q + 1) * w`); in particular
`Amount(329) / Weight(381) = FeeRate(863)`. When `a * 1000` overflows the
operation traps or wraps instead. -/
theorem C7_amount_div_weight (dbg : Bool) (a w : Nat) (hw : w ≠ 0)
    (hbound : a * 1000 < 2 ^ 64) :
    Amount.divWeight dbg (Amount.from_sat a) (Weight.from_wu w) =
      some (FeeRate.from_sat_per_kwu (a * 1000 / w)) ∧
    (a * 1000 / w) * w ≤ a * 1000 ∧
    a * 1000 < (a * 1000 / w + 1) * w ∧
    Amount.divWeight dbg (Amount.from_sat 329) (Weight.from_wu 381) =
      some (FeeRate.from_sat_per_kwu 863) := by
  have hdiv : ∀ x y : Nat, y ≠ 0 →
      Amount.divWeight dbg (Amount.from_sat x) (Weight.from_wu y) =
        (u64Mul dbg x 1000).bind fun m => some (FeeRate.mk (m / y)) := by
    intro x y hy
    show (u64Mul dbg x 1000).bind
      (fun m => (u64Div m (Weight.to_wu (Weight.from_wu y))).map FeeRate.mk) = _
    refine congrArg _ (funext fun m => ?_)
    rw [show Weight.to_wu (Weight.from_wu y) = y from rfl, u64Div_eq_some hy]
    rfl
  refine ⟨?_, Nat.div_mul_le_self _ _, ?_, ?_⟩
  · rw [hdiv a w hw, u64Mul_eq_some hbound]
    rfl
  · exact (Nat.div_lt_iff_lt_mul (Nat.pos_of_ne_zero hw)).1 (Nat.lt_succ_self _)
  · rw [hdiv 329 381 (by norm_num), u64Mul_eq_some (by norm_num)]
    rfl

/-- Claim C7 (witness): the amended theorem at overflow checks on and the
repo's `fee_rate_div_by_weight` test input, `Amount(329) / Weight(381)`. -/
theorem C7_witness :
    Amount.divWeight true (Amount.from_sat 329) (Weight.from_wu 381) =
      some (FeeRate.from_sat_per_kwu 863) :=
  (C7_amount_div_weight true 329 381 (by norm_num) (by norm_num)).1.trans (by norm_num)

/-- Claim C8 (counterexample): with overflow checks disabled (the release
default), `from_sat_per_vb_unchecked(u64::MAX)` does not trap: it silently
returns the wrapped-around rate `18446744073709551366`, which differs from
the true mathematical result `(2 ^ 64 - 1) * 250`. -/
theorem C8_counterexample :
    2 ^ 64 ≤ (2 ^ 64 - 1) * 250 ∧
    FeeRate.from_sat_per_vb_unchecked false (2 ^ 64 - 1) =
      some (FeeRate.from_sat_per_kwu 18446744073709551366) ∧
    (18446744073709551366 : Nat) ≠ (2 ^ 64 - 1) * 250 := by
  refine ⟨by omega, ?_, by norm_num⟩
  show (u64Mul false (2 ^ 64 - 1) (1000 / 4)).map FeeRate.mk = _
  unfold u64Mul U64_MOD
  rw [if_neg (by omega)]
  norm_num [FeeRate.from_sat_per_kwu]

/-- Claim C8 (amended): with overflow checks enabled (debug builds), every
unchecked form — `from_sat_per_vb_unchecked`, the infix `+`, `-`, and the
rate-times-weight operator — traps (panics) whenever the true mathematical
result falls outside the `u64` range, and returns the exact mathematical
result otherwise; no wrapped-around value is ever produced in that mode.
With overflow checks disabled the value silently wraps modulo `2 ^ 64`. -/
theorem C8_debug_overflow_traps (v a b r w : Nat) (_hv : v < 2 ^ 64) (_ha : a < 2 ^ 64)
    (_hb : b < 2 ^ 64) (_hr : r < 2 ^ 64) (_hw : w < 2 ^ 64) :
    (2 ^ 64 ≤ v * 250 → FeeRate.from_sat_per_vb_unchecked true v = none) ∧
    (v * 250 < 2 ^ 64 →
      FeeRate.from_sat_per_vb_unchecked true v = some (FeeRate.from_sat_per_kwu (v * 250))) ∧
    (2 ^ 64 ≤ a + b →
      FeeRate.add true (FeeRate.from_sat_per_kwu a) (FeeRate.from_sat_per_kwu b) = none) ∧
    (a + b < 2 ^ 64 →
      FeeRate.add true (FeeRate.from_sat_per_kwu a) (FeeRate.from_sat_per_kwu b) =
        some (FeeRate.from_sat_per_kwu (a + b))) ∧
    (a < b →
      FeeRate.sub true (FeeRate.from_sat_per_kwu a) (FeeRate.from_sat_per_kwu b) = none) ∧
    (b ≤ a →
      FeeRate.sub true (FeeRate.from_sat_per_kwu a) (FeeRate.from_sat_per_kwu b) =
        some (FeeRate.from_sat_per_kwu (a - b))) ∧
    (2 ^ 64 ≤ r * w + 999 →
      FeeRate.mulWeight true (FeeRate.from_sat_per_kwu r) (Weight.from_wu w) = none) ∧
    (r * w + 999 < 2 ^ 64 →
      FeeRate.mulWeight true (FeeRate.from_sat_per_kwu r) (Weight.from_wu w) =
        some (Amount.from_sat ((r * w + 999) / 1000))) := by
  refine ⟨?_, ?_, ?_, ?_, ?_, ?_, ?_, ?_⟩
  · intro h
    show (u64Mul true v (1000 / 4)).map FeeRate.mk = none
    rw [show (1000 / 4 : Nat) = 250 from rfl, u64Mul_true_eq_none (by omega)]
    rfl
  · intro h
    show (u64Mul true v (1000 / 4)).map FeeRate.mk = _
    rw [show (1000 / 4 : Nat) = 250 from rfl, u64Mul_eq_some h]
    rfl
  · intro h
    show (u64Add true a b).map FeeRate.mk = none
    rw [u64Add_true_eq_none h]
    rfl
  · intro h
    show (u64Add true a b).map FeeRate.mk = _
    rw [u64Add_eq_some h]
    rfl
  · intro h
    show (u64Sub true a b).map FeeRate.mk = none
    rw [u64Sub_true_eq_none h]
    rfl
  · intro h
    show (u64Sub true a b).map FeeRate.mk = _
    rw [u64Sub_eq_some h]
    rfl
  · intro h
    show (u64Mul true r w).bind
      (fun m => (u64Add true m 999).map fun s => Amount.from_sat (s / 1000)) = none
    by_cases h1 : r * w < 2 ^ 64
    · rw [u64Mul_eq_some h1, optionBind_some, u64Add_true_eq_none (by omega)]
      rfl
    · rw [u64Mul_true_eq_none (by omega)]
      rfl
  · intro h
    show (u64Mul true r w).bind
      (fun m => (u64Add true m 999).map fun s => Amount.from_sat (s / 1000)) = _
    rw [u64Mul_eq_some (by omega), optionBind_some, u64Add_eq_some h]
    rfl

/-- Claim C8 (witness): the amended theorem with checks on at `u64::MAX`:
the unchecked constructor traps, and `u64::MAX + 1` traps in `FeeRate` `+`. -/
theorem C8_witness :
    FeeRate.from_sat_per_vb_unchecked true (2 ^ 64 - 1) = none ∧
    FeeRate.add true (FeeRate.from_sat_per_kwu (2 ^ 64 - 1)) (FeeRate.from_sat_per_kwu 1) =
      none :=
  ⟨(C8_debug_overflow_traps (2 ^ 64 - 1) (2 ^ 64 - 1) 1 1 1 (by omega) (by omega)
      (by omega) (by omega) (by omega)).1 (by omega),
   (C8_debug_overflow_traps (2 ^ 64 - 1) (2 ^ 64 - 1) 1 1 1 (by omega) (by omega)
      (by omega) (by omega) (by omega)).2.2.1 (by omega)⟩

/-- Claim C10: dividing any `Amount` by the zero `Weight` reaches an integer
division by zero (or, in debug builds with a huge amount, an overflow in the
preceding `* 1000`): in every build mode the operation traps and never
produces a value, so `Amount / Weight` is total only when the weight is
non-zero. -/
theorem C10_div_by_zero_weight (dbg : Bool) (a : Nat) (_ha : a < 2 ^ 64) :
    Amount.divWeight dbg (Amount.from_sat a) (Weight.from_wu 0) = none := by
  show (u64Mul dbg a 1000).bind
    (fun m => (u64Div m (Weight.to_wu (Weight.from_wu 0))).map FeeRate.mk) = none
  have hdiv : ∀ m : Nat, (u64Div m (Weight.to_wu (Weight.from_wu 0))).map FeeRate.mk = none := by
    intro m
    rfl
  cases hm : u64Mul dbg a 1000 with
  | none => rfl
  | some m => exact (congrArg (fun o => Option.bind o _) (Eq.refl (some m))).trans (hdiv m)

/-- Claim C10 (witness): the trap at `Amount(5) / Weight(0)` with checks on. -/
theorem C10_witness :
    Amount.divWeight true (Amount.from_sat 5) (Weight.from_wu 0) = none :=
  C10_div_by_zero_weight true 5 (by norm_num)

/-- Claim C2: for every valid address — a network paired with a 20-byte
hash — encoding to the 21-byte Base58Check payload (version byte followed by
the hash bytes) and decoding the payload back yields a structurally equal
address. -/
theorem C2_roundtrip (net : Network) (h : List Nat) (hlen : h.length = 20)
    (_hbytes : ∀ b ∈ h, b < 256) :
    Address.from_base58_layout (Address.base58_layout ⟨net, ⟨h⟩⟩) =
      Except.ok ⟨net, ⟨h⟩⟩ := by
  cases net <;>
    simp [Address.base58_layout, Address.from_base58_layout, Ripemd160Hash.from_slice, hlen]

/-- Claim C2 (witness): the round trip at the repo's `test_address_58`
vector — mainnet and hash `162c5ea71c0b23f5b9022ef047c4a86470a5b070`. -/
theorem C2_witness :
    Address.from_base58_layout (Address.base58_layout ⟨Network.Bitcoin,
      ⟨[0x16, 0x2c, 0x5e, 0xa7, 0x1c, 0x0b, 0x23, 0xf5, 0xb9, 0x02,
        0x2e, 0xf0, 0x47, 0xc4, 0xa8, 0x64, 0x70, 0xa5, 0xb0, 0x70]⟩⟩) =
      Except.ok ⟨Network.Bitcoin,
      ⟨[0x16, 0x2c, 0x5e, 0xa7, 0x1c, 0x0b, 0x23, 0xf5, 0xb9, 0x02,
        0x2e, 0xf0, 0x47, 0xc4, 0xa8, 0x64, 0x70, 0xa5, 0xb0, 0x70]⟩⟩ :=
  C2_roundtrip Network.Bitcoin _ (by decide) (by decide)

/-- Claim C3: decoding a payload fails with `InvalidLength n` exactly when the
payload length `n` differs from 21 (this check takes precedence over the
version check); a 21-byte payload fails with `InvalidVersion [x]` exactly
when its first byte `x` is neither 0 nor 111; otherwise decoding succeeds
with the network selected by the version byte and the hash equal to bytes
1..21 of the payload. -/
theorem C3_from_base58_layout_cases (data : List Nat) :
    (∀ n : Nat, Address.from_base58_layout data = Except.error (Base58Error.InvalidLength n) ↔
      data.length ≠ 21 ∧ n = data.length) ∧
    (∀ bs : List Nat,
      Address.from_base58_layout data = Except.error (Base58Error.InvalidVersion bs) ↔
      data.length = 21 ∧
        ∃ x rest, data = x :: rest ∧ x ≠ 0 ∧ x ≠ 111 ∧ bs = [x]) ∧
    (∀ a : Address, Address.from_base58_layout data = Except.ok a ↔
      data.length = 21 ∧
        ((a.network = Network.Bitcoin ∧ data = 0 :: a.hash.bytes) ∨
         (a.network = Network.Testnet ∧ data = 111 :: a.hash.bytes))) := by
  by_cases hl : data.length = 21
  · cases data with
    | nil => simp at hl
    | cons x rest =>
      by_cases h0 : x = 0
      · subst h0
        refine ⟨fun n => ?_, fun bs => ?_, fun a => ?_⟩
        · simp [Address.from_base58_layout, hl]
        · simp [Address.from_base58_layout, hl]
        · constructor
          · intro h
            simp [Address.from_base58_layout, hl, Ripemd160Hash.from_slice] at h
            subst h
            exact ⟨hl, Or.inl ⟨rfl, rfl⟩⟩
          · rintro ⟨-, (⟨hnet, hdata⟩ | ⟨hnet, hdata⟩)⟩
            · obtain ⟨anet, ⟨abytes⟩⟩ := a
              simp at hnet
              subst hnet
              simp at hdata
              subst hdata
              simp [Address.from_base58_layout, hl, Ripemd160Hash.from_slice]
            · simp at hdata
      · by_cases h111 : x = 111
        · subst h111
          refine ⟨fun n => ?_, fun bs => ?_, fun a => ?_⟩
          · simp [Address.from_base58_layout, hl]
          · simp [Address.from_base58_layout, hl]
          · constructor
            · intro h
              simp [Address.from_base58_layout, hl, Ripemd160Hash.from_slice] at h
              subst h
              exact ⟨hl, Or.inr ⟨rfl, rfl⟩⟩
            · rintro ⟨-, (⟨hnet, hdata⟩ | ⟨hnet, hdata⟩)⟩
              · simp at hdata
              · obtain ⟨anet, ⟨abytes⟩⟩ := a
                simp at hnet
                subst hnet
                simp at hdata
                subst hdata
                simp [Address.from_base58_layout, hl, Ripemd160Hash.from_slice]
        · refine ⟨fun n => ?_, fun bs => ?_, fun a => ?_⟩
          · simp [Address.from_base58_layout, hl, h0, h111]
          · simp [Address.from_base58_layout, hl, h0, h111]
            exact eq_comm
          · simp [Address.from_base58_layout, hl, h0, h111]
  · refine ⟨fun n => ?_, fun bs => ?_, fun a => ?_⟩
    · simp [Address.from_base58_layout, hl]
      constructor
      · intro h
        exact h.symm
      · intro h
        exact h.symm
    · simp [Address.from_base58_layout, hl]
    · simp [Address.from_base58_layout, hl]

/-- Claim C3 (witness): concrete decodes derived from the case theorem — a
5-byte payload gives `InvalidLength 5`, a 21-byte payload led by 5 gives
`InvalidVersion [5]`, and a 21-byte payload led by 111 decodes to a testnet
address. -/
theorem C3_witness :
    Address.from_base58_layout (List.replicate 5 0) =
      Except.error (Base58Error.InvalidLength 5) ∧
    Address.from_base58_layout (5 :: List.replicate 20 0) =
      Except.error (Base58Error.InvalidVersion [5]) ∧
    Address.from_base58_layout (111 :: List.replicate 20 0) =
      Except.ok ⟨Network.Testnet, ⟨List.replicate 20 0⟩⟩ :=
  ⟨((C3_from_base58_layout_cases (List.replicate 5 0)).1 5).mpr (by decide),
   ((C3_from_base58_layout_cases (5 :: List.replicate 20 0)).2.1 [5]).mpr
     ⟨by decide, 5, List.replicate 20 0, rfl, by decide, by decide, rfl⟩,
   ((C3_from_base58_layout_cases (111 :: List.replicate 20 0)).2.2
       ⟨Network.Testnet, ⟨List.replicate 20 0⟩⟩).mpr
     ⟨by decide, Or.inr ⟨rfl, rfl⟩⟩⟩

/-- Claim C4: for every well-formed digest implementation, network and public
key, `from_key` returns an address on the given network whose hash is
RIPEMD-160 of SHA-256 of the public key bytes; the construction is
deterministic (equal inputs give structurally equal addresses); and the
input handed to `Ripemd160Hash::from_data` is the 32-byte SHA-256 digest,
not an already-computed 20-byte digest. -/
theorem C4_from_key (d : DigestImpl) (net : Network) (pk : List Nat) (hd : d.WF) :
    (Address.from_key d net pk).network = net ∧
    (Address.from_key d net pk).hash = Ripemd160Hash.from_data d (d.sha256 pk) ∧
    (Address.from_key d net pk).hash.bytes = d.ripemd160 (d.sha256 pk) ∧
    (Address.from_key d net pk).hash.bytes.length = 20 ∧
    (d.sha256 pk).length = 32 ∧
    (∀ net2 pk2, net2 = net → pk2 = pk →
      Address.from_key d net2 pk2 = Address.from_key d net pk) :=
  ⟨rfl, rfl, rfl, hd.2 (d.sha256 pk), hd.1 pk,
   fun _ _ hnet hpk => by rw [hnet, hpk]⟩

/-- Claim C4 (witness): the from-key theorem at a concrete digest
implementation (constant 32-byte and 20-byte outputs), mainnet, and the
public key bytes `[9, 9, 9]`. -/
theorem C4_witness :
    (Address.from_key ⟨fun _ => List.replicate 32 1, fun _ => List.replicate 20 2⟩
        Network.Bitcoin [9, 9, 9]).network = Network.Bitcoin ∧
    (Address.from_key ⟨fun _ => List.replicate 32 1, fun _ => List.replicate 20 2⟩
        Network.Bitcoin [9, 9, 9]).hash.bytes.length = 20 :=
  ⟨(C4_from_key ⟨fun _ => List.replicate 32 1, fun _ => List.replicate 20 2⟩
      Network.Bitcoin [9, 9, 9] ⟨fun _ => rfl, fun _ => rfl⟩).1,
   (C4_from_key ⟨fun _ => List.replicate 32 1, fun _ => List.replicate 20 2⟩
      Network.Bitcoin [9, 9, 9] ⟨fun _ => rfl, fun _ => rfl⟩).2.2.2.1⟩

/-- Claim C9: `script_pubkey` has no failure path and always produces exactly
the 5-element sequence `OP_DUP, OP_HASH160, <push of the 20 hash bytes>,
OP_EQUALVERIFY, OP_CHECKSIG`, in that order. -/
theorem C9_script_pubkey (a : Address) :
    a.script_pubkey =
      [ScriptElem.op Opcode.OP_DUP,
       ScriptElem.op Opcode.OP_HASH160,
       ScriptElem.pushSlice a.hash.bytes,
       ScriptElem.op Opcode.OP_EQUALVERIFY,
       ScriptElem.op Opcode.OP_CHECKSIG] ∧
    a.script_pubkey.length = 5 := by
  constructor <;> rfl
